import Mathlib

/-!
Verification of the scan-and-grade pipeline of the `stock` repository.

The Lean definitions below are shallow embeddings of the Python sources:

* `src/data_collector.py` — TTL cache checks, universe filtering, flow data,
  and the module-level singleton construction;
* `src/indicators.py`    — the pure indicator library (sma/ema/atr, fibonacci
  extensions, cross detection, target computation);
* `src/strategies.py`    — the golden-cross strategy evaluator;
* `src/server.py`        — the three-stage intersection grader
  (`analyze_intersections`);
* `src/scanner.py`       — the locking discipline of `QuantScanner.run_scan`
  and the in-place strategy-parameter overrides;
* `src/risk_manager.py`  — the `MarketCondition` record consumed by grading.

Python floats are modelled as exact rationals (the type `Q` below; every
computation settled here is exact decimal/rational arithmetic, no float
rounding is exercised at the inputs of any theorem); machine-level concerns
(threads, module import) are modelled as explicit transition systems /
`Except` values.
-/

namespace Stock

/-!
### Exact rational arithmetic that evaluates inside the kernel

Python floats are modelled by the rational type `Q` below (every
computation settled in this file is exact decimal/rational arithmetic; no
IEEE rounding is exercised at the inputs of any theorem).  `Q` keeps the
canonical representative (positive denominator, reduced by `Nat.gcd`), so
structural equality is value equality and every operation reduces by
`decide`. -/

structure Q where
  num : Int
  den : Nat
deriving DecidableEq, Repr

namespace Q

/-- Canonical representative of the fraction `n / d` (`0/1` for `d = 0`,
a case no computation below reaches on its actual inputs). -/
def norm (n d : Int) : Q :=
  if d = 0 then ⟨0, 1⟩
  else
    let n' := if d < 0 then -n else n
    let d' := (if d < 0 then -d else d).toNat
    let g := Nat.gcd n'.natAbs d'
    ⟨n' / (g : Int), d' / g⟩

instance : OfNat Q n := ⟨⟨n, 1⟩⟩
instance : NatCast Q := ⟨fun n => ⟨n, 1⟩⟩
instance : IntCast Q := ⟨fun n => ⟨n, 1⟩⟩
instance : Neg Q := ⟨fun a => ⟨-a.num, a.den⟩⟩
instance : Add Q :=
  ⟨fun a b => norm (a.num * b.den + b.num * a.den) (a.den * b.den)⟩
instance : Sub Q :=
  ⟨fun a b => norm (a.num * b.den - b.num * a.den) (a.den * b.den)⟩
instance : Mul Q := ⟨fun a b => norm (a.num * b.num) (a.den * b.den)⟩
instance : Div Q := ⟨fun a b => norm (a.num * b.den) ((a.den : Int) * b.num)⟩
instance : LT Q := ⟨fun a b => a.num * b.den < b.num * a.den⟩
instance : LE Q := ⟨fun a b => a.num * b.den ≤ b.num * a.den⟩
instance (a b : Q) : Decidable (a < b) :=
  inferInstanceAs (Decidable (a.num * b.den < b.num * a.den))
instance (a b : Q) : Decidable (a ≤ b) :=
  inferInstanceAs (Decidable (a.num * b.den ≤ b.num * a.den))
instance : Max Q := ⟨fun a b => if a < b then b else a⟩
instance : Min Q := ⟨fun a b => if a < b then a else b⟩

/-- Absolute value. -/
def abs (a : Q) : Q := if a < 0 then -a else a

/-- Natural-number power. -/
def pow (a : Q) : Nat → Q
  | 0 => 1
  | n + 1 => a * pow a n

instance : HPow Q Nat Q := ⟨pow⟩

/-- Sum of a list. -/
def sum (l : List Q) : Q := l.foldl (· + ·) 0

/-- Floor (rounding toward −∞, like Python `math.floor`). -/
def floor (a : Q) : Int := a.num.fdiv a.den

end Q

/-! ### Python `round` (banker's rounding), used by `round(x, n)` calls
in `indicators.py` and `strategies.py`. -/

/-- Python `round(x)`: round half to even. -/
def pyRound0 (q : Q) : Int :=
  let f : Int := q.floor
  let frac : Q := q - (f : Q)
  if frac < 1/2 then f
  else if 1/2 < frac then f + 1
  else if f % 2 = 0 then f else f + 1

/-- Python `round(x, n)` for `n ≥ 0`: round half to even at `10^-n`. -/
def pyRound (q : Q) (n : Nat) : Q :=
  (pyRound0 (q * (10 : Q) ^ n) : Q) / (10 : Q) ^ n

/-! ### Stable sorting (Python `sorted` / `list.sort`)

A structural stable insertion sort: on a total preorder `le` its output is
the unique stably-sorted permutation, the same list Python's stable sort
produces. -/

/-- Insert `x` after every already-placed element `y` with `le y x`. -/
def insertLe {α : Type} (le : α → α → Bool) (x : α) : List α → List α
  | [] => [x]
  | y :: ys => if le y x then y :: insertLe le x ys else x :: y :: ys

/-- Stable insertion sort. -/
def insertionSort {α : Type} (le : α → α → Bool) (l : List α) : List α :=
  l.foldl (fun acc x => insertLe le x acc) []

/-! ### C7 — TTL-cache freshness check of `DataCollector`

`src/data_collector.py` guards every cached read with the same pattern
(`get_ohlcv` lines 272–275, `get_market_cap_data` lines 151–154,
`get_market_index` lines 575–578):

    ts, df = self._cache[cache_key]
    if (datetime.now() - ts).seconds < 600:
        return df

`datetime` subtraction yields a `timedelta`, and `timedelta.seconds` is the
seconds component of the normalized (days, seconds, microseconds) triple,
i.e. `age mod 86400` — not the total age. We model entry age in whole
seconds. -/

/-- `timedelta.seconds` of a non-negative age given in seconds:
the seconds field of the normalized timedelta, `age % 86400`. -/
def timedeltaSeconds (ageSecs : Nat) : Nat := ageSecs % 86400

/-- The freshness test `(datetime.now() - ts).seconds < 600` applied to an
entry of the given age (in whole seconds). -/
def cacheFresh (ageSecs : Nat) : Bool := timedeltaSeconds ageSecs < 600

/-- A cache entry of `DataCollector._cache`: fetch timestamp (absolute
seconds) and payload. -/
structure CacheEntry (α : Type) where
  fetchedAt : Nat
  payload : α
deriving Repr, DecidableEq

/-- The cached read path shared by `get_ohlcv` / `get_market_cap_data` /
`get_market_index`: serve the payload iff an entry exists and the freshness
test passes; `none` means "fall through to the upstream fetch". -/
def cachedLookup {α : Type} (entry : Option (CacheEntry α)) (now : Nat) :
    Option α :=
  match entry with
  | none => none
  | some e => if cacheFresh (now - e.fetchedAt) then some e.payload else none

/-! ### C2 — module import of `src/data_collector.py`

The import section of `data_collector.py` (lines 8–18) binds exactly:
`time, json, logging, requests, pd, np, datetime, timedelta, Dict, List,
Optional, Tuple, StringIO, kis_config, filter_config` — it never imports
`os`.  `DataCollector._load_names` (line 112) evaluates
`os.path.exists(self.names_file)` *outside* its `try` block, and
`DataCollector.__init__` calls `_load_names`; the module then executes
`collector = DataCollector()` at top level (line 743).  We model Python
name resolution for the one lookup that decides the claim. -/

/-- A Python exception value (only the constructors the model needs). -/
inductive PyError where
  | nameError (name : String) : PyError
deriving Repr, DecidableEq

/-- The global names bound in `data_collector.py` before
`collector = DataCollector()` runs (imports of lines 8–18 plus the
module-level definitions above line 743). -/
def dataCollectorGlobals : List String :=
  ["time", "json", "logging", "requests", "pd", "np", "datetime",
   "timedelta", "Dict", "List", "Optional", "Tuple", "StringIO",
   "kis_config", "filter_config", "logger", "KRX_HEADERS", "krx_post",
   "KISAuth", "kis_auth", "DataCollector"]

/-- Resolve a global name: raises `NameError` when unbound. -/
def resolveGlobal (globals : List String) (name : String) :
    Except PyError Unit :=
  if name ∈ globals then .ok () else .error (.nameError name)

/-- `DataCollector._load_names`, first statement:
`if os.path.exists(self.names_file):` — the lookup of `os` happens before
the `try: ... except: pass` body, so a `NameError` here is not caught. -/
def loadNames (globals : List String) : Except PyError Unit := do
  let _ ← resolveGlobal globals "os"
  pure ()

/-- `DataCollector.__init__` (lines 104–108): builds the empty caches and
then calls `self._load_names()`. -/
def dataCollectorInit (globals : List String) : Except PyError Unit :=
  loadNames globals

/-- Module import of `data_collector.py`: after executing the class body,
the top level runs `collector = DataCollector()` (line 743). -/
def importDataCollector : Except PyError Unit :=
  dataCollectorInit dataCollectorGlobals

/-! ### C1 — locking discipline of `QuantScanner.run_scan`

`src/scanner.py`: `run_scan` (line 58) takes `with self._lock:` around the
entire scan; `self._lock` is a non-reentrant `threading.Lock` (line 52).
Inside the critical section it runs `executor.map(analyze_ticker,
ticker_list)` (line 163) on a `ThreadPoolExecutor` and blocks until every
worker has returned.  Each worker's `analyze_ticker` (line 149) executes
`with self._lock:` for its progress update before it can return.  We model
the joint state of the main thread and the pool. -/

/-- Joint state of `run_scan`'s main thread and its worker pool.
`mainHoldsLock`: the main thread is inside `with self._lock:`.
`pendingWorkers`: workers that still have to run their `with self._lock:`
progress-update block before returning to `executor.map`.
`mainDone`: `run_scan` has returned its results dict. -/
structure ScanState where
  mainHoldsLock : Bool
  pendingWorkers : Nat
  mainDone : Bool
deriving Repr, DecidableEq

/-- State at the moment `executor.map` starts waiting on a scan over
`n` tickers: the main thread holds `self._lock` and every worker still has
its progress update ahead of it. -/
def scanStart (n : Nat) : ScanState :=
  { mainHoldsLock := true, pendingWorkers := n, mainDone := false }

/-- Transitions of the lock protocol.
A worker can complete only by acquiring the (free) lock for its progress
update; the main thread can leave the `with self._lock:` block and return
only once `executor.map` has collected every worker. -/
inductive ScanStep : ScanState → ScanState → Prop where
  | workerUpdate (s : ScanState) (k : Nat) :
      s.mainHoldsLock = false → s.pendingWorkers = k + 1 →
      ScanStep s { s with pendingWorkers := k }
  | mainFinish (s : ScanState) :
      s.mainHoldsLock = true → s.pendingWorkers = 0 → s.mainDone = false →
      ScanStep s { s with mainHoldsLock := false, mainDone := true }

/-- Reachability under `ScanStep`. -/
inductive ScanReach : ScanState → ScanState → Prop where
  | refl (s : ScanState) : ScanReach s s
  | tail {s t u : ScanState} : ScanReach s t → ScanStep t u → ScanReach s u

/-! ### C10 — per-scan `vars` overrides mutate the shared strategy config

`src/config.py` lines 172–181 build the process-wide singleton
`strategy_config`; `StrategyEngine.__init__` (`src/strategies.py` line 59)
stores `self.params = strategy_config`, i.e. an alias of that same object.
`run_scan` (`src/scanner.py` lines 102–119) writes
`strategy_engine.params.<strategy>.<field> = v.get(key, default)` in place
when a non-empty `vars` map is supplied, and writes nothing otherwise. -/

/-- The tunable fields of `strategy_config` written by `run_scan` (numeric
values as `Q`). Field defaults are those of `config.py`. -/
structure StrategyParams where
  pullback_reference_candle_lookback : Q := 5
  pullback_volume_cliff_threshold : Q := 3/10
  bottom_escape_ma_period : Q := 20
  bottom_escape_accumulation_volume_ratio : Q := 2
  golden_cross_short_ma : Q := 5
  golden_cross_long_ma : Q := 20
  golden_cross_rsi_threshold : Q := 50
  breakout_box_lookback : Q := 60
  breakout_volume_surge_ratio : Q := 2
  convergence_convergence_pct : Q := 3/100
deriving Repr, DecidableEq

/-- The `strategy_config` singleton as initialized by `config.py`. -/
def initialStrategyConfig : StrategyParams := {}

/-- The `vars` map of a scan request: JSON object of numeric knobs. -/
def VarsMap := List (String × Q)

/-- `v.get(key, default)`. -/
def varsGet (v : VarsMap) (key : String) (default : Q) : Q :=
  match v.lookup key with
  | some x => x
  | none => default

/-- The `if v:` block of `run_scan` (scanner.py lines 102–119): when the
`vars` map is present and non-empty, every listed field of the shared
parameter object is overwritten in place with `v.get(key, hardcoded
default)`; otherwise the object is left untouched. -/
def applyScanVars (vars : Option VarsMap) (p : StrategyParams) :
    StrategyParams :=
  match vars with
  | none => p
  | some v =>
    if v.isEmpty then p
    else
      { pullback_reference_candle_lookback := varsGet v "p_lookback" 5
        pullback_volume_cliff_threshold := varsGet v "p_vol" (3/10)
        bottom_escape_ma_period := varsGet v "b_ma" 20
        bottom_escape_accumulation_volume_ratio := varsGet v "b_vol_ratio" 2
        golden_cross_short_ma := varsGet v "g_short" 5
        golden_cross_long_ma := varsGet v "g_long" 20
        golden_cross_rsi_threshold := varsGet v "g_rsi" 50
        breakout_box_lookback := varsGet v "br_lookback" 60
        breakout_volume_surge_ratio := varsGet v "br_vol" 2
        convergence_convergence_pct := varsGet v "c_pct" (3/100) }

/-- One `run_scan` call as it affects the shared parameter object: the
override block runs first, then the strategy evaluators read
`strategy_engine.params` (the very same mutated object).  Returns
(parameters read by this scan's evaluators, parameter state left behind). -/
def runScanParams (vars : Option VarsMap) (st : StrategyParams) :
    StrategyParams × StrategyParams :=
  let st' := applyScanVars vars st
  (st', st')

end Stock

namespace Stock

/-! ### Indicator library (`src/indicators.py`)

Price series are modelled positionally: a `List Q` of closes (a pandas
`Series`), or a `List Bar` for OHLCV frames.  A pandas `NaN` cell is
modelled as `none` in a `List (Option Q)`. -/

/-- One row of an OHLCV DataFrame (`시가/고가/저가/종가/거래량`). -/
structure Bar where
  «open» : Q
  high : Q
  low : Q
  close : Q
  volume : Q
deriving Repr, DecidableEq

/-- Arithmetic mean of a list (denominator its length). -/
def listMean (xs : List Q) : Q := xs.sum / (xs.length : Q)

/-- `TechnicalIndicators.sma`:
`series.rolling(window=period, min_periods=period).mean()` — index `i`
carries the mean of positions `i-period+1 … i` when at least `period`
observations exist there, `NaN` otherwise. -/
def sma (xs : List Q) (period : Nat) : List (Option Q) :=
  (List.range xs.length).map fun i =>
    if period ≤ i + 1 ∧ 0 < period then
      some (listMean ((xs.take (i + 1)).drop (i + 1 - period)))
    else none

/-- `TechnicalIndicators.ema`:
`series.ewm(span=period, adjust=False).mean()` with `alpha = 2/(span+1)`.
`adjust=False` is the recursive form `y_0 = x_0`,
`y_t = (1-α)·y_{t-1} + α·x_t`; with no `min_periods`, every index of a
NaN-free input carries a numeric value.  `emaStep` is one recursion step,
accumulating the output in reverse. -/
def emaStep (α : Q) (acc : Q × List Q) (x : Q) : Q × List Q :=
  let y := (1 - α) * acc.1 + α * x
  (y, y :: acc.2)

def ema (xs : List Q) (span : Nat) : List Q :=
  let α : Q := 2 / ((span : Q) + 1)
  match xs with
  | [] => []
  | x :: rest => ((rest.foldl (emaStep α) (x, [x])).2).reverse

/-- True range of a bar given the previous close, the row-wise
`max(high-low, |high-prevClose|, |low-prevClose|)`; at the first row the
shifted close is `NaN` and pandas' row-wise `max` skips it, leaving
`high - low`. -/
def trueRange (b : Bar) (prevClose : Option Q) : Q :=
  match prevClose with
  | none => b.high - b.low
  | some c => max (b.high - b.low) (max (Q.abs (b.high - c)) (Q.abs (b.low - c)))

/-- The true-range series of a frame (`close.shift(1)` feeding each row). -/
def trueRangeSeries (bars : List Bar) : List Q :=
  (List.range bars.length).map fun i =>
    match bars[i]? with
    | none => 0
    | some b => trueRange b (if i = 0 then none else (bars[i-1]?).map (·.close))

/-- `TechnicalIndicators.atr`: rolling mean of the true range with
`min_periods = period`. -/
def atr (bars : List Bar) (period : Nat) : List (Option Q) :=
  sma (trueRangeSeries bars) period

/-! #### ewm with `adjust=True` (used only by `rsi`) -/

/-- `ewm(com=c, min_periods=m).mean()` with default `adjust=True`:
index `t` carries `Σ_{i≤t} β^i x_{t-i} / Σ_{i≤t} β^i` with
`β = 1 - 1/(1+c) = c/(1+c)`, and `NaN` while fewer than `m` observations
have been seen. -/
def ewmAdjMean (xs : List Q) (com : Nat) (minPeriods : Nat) :
    List (Option Q) :=
  let β : Q := (com : Q) / ((com : Q) + 1)
  (List.range xs.length).map fun t =>
    if minPeriods ≤ t + 1 then
      let window := (xs.take (t + 1)).reverse
      let num := (window.enum.map fun p => p.2 * β ^ p.1).sum
      let den := ((List.range (t + 1)).map fun i => β ^ i).sum
      some (num / den)
    else none

/-- Consecutive differences `series.diff()` (`NaN` at index 0). -/
def seriesDiff (xs : List Q) : List (Option Q) :=
  (List.range xs.length).map fun i =>
    if i = 0 then none
    else match xs[i]?, xs[i-1]? with
      | some a, some b => some (a - b)
      | _, _ => none

/-- `TechnicalIndicators.rsi`: Wilder RSI.
`delta.where(delta > 0, 0.0)` maps the index-0 `NaN` (whose comparison with
0 is False) to `0.0`, so the gain/loss series are NaN-free; the smoothed
averages use `ewm(com=period-1, min_periods=period)`; `avg_loss == 0`
becomes `NaN` via `.replace(0, np.nan)`; finally `.fillna(50)`. -/
def rsi (xs : List Q) (period : Nat) : List Q :=
  let deltas := seriesDiff xs
  let gain : List Q := deltas.map fun d =>
    match d with | some v => if 0 < v then v else 0 | none => 0
  let loss : List Q := deltas.map fun d =>
    match d with | some v => if v < 0 then -v else 0 | none => 0
  let avgGain := ewmAdjMean gain (period - 1) period
  let avgLoss := ewmAdjMean loss (period - 1) period
  (List.range xs.length).map fun i =>
    match avgGain[i]?, avgLoss[i]? with
    | some (some g), some (some l) =>
      if l = 0 then 50 else 100 - 100 / (1 + g / l)
    | _, _ => 50

/-- `TechnicalIndicators.ma_slope_degree`: percent change of a (possibly
NaN-carrying) MA series from `lookback` bars ago to the latest bar, rounded
to 4 decimals; `0.0` when the series is shorter than `lookback + 1`.
A `NaN` endpoint (or a zero base, where Python would produce ±inf/NaN)
is modelled as `none`; the caller's `slope >= threshold` comparison is then
False, matching IEEE comparison with NaN. -/
def maSlopeDegree (xs : List (Option Q)) (lookback : Nat) :
    Option Q :=
  if xs.length < lookback + 1 then some 0
  else
    match xs[xs.length - 1]?, xs[xs.length - lookback]? with
    | some (some a), some (some b) =>
      if b = 0 then none else some (pyRound ((a - b) / b * 100) 4)
    | _, _ => none

/-- `TechnicalIndicators.fibonacci_extension`: the five default extension
levels `low + (high-low)·{1.0, 1.272, 1.618, 2.0, 2.618}`, each passed
through `round(price, 0)`; returned in level order (the dict's insertion
order). -/
def fibonacciExtension (high low : Q) : List Q :=
  [1, 1272/1000, 1618/1000, 2, 2618/1000].map fun level =>
    pyRound (low + (high - low) * level) 0

/-- `TechnicalIndicators.calc_target_price`, restricted to the two fields
the strategy evaluators read (`1차_목표가`, `2차_목표가`): swing high/low
over the last 60 bars (or all bars when fewer), fibonacci extensions, then
the two smallest extension values strictly above the current close.
`(none, none)` when the frame has fewer than 20 bars. -/
def calcTargetPrice (bars : List Bar) : Option Q × Option Q :=
  if bars.length < 20 then (none, none)
  else
    let recent := if 60 ≤ bars.length then bars.drop (bars.length - 60) else bars
    let swingHigh := (recent.map (·.high)).foldl max 0
    let swingLow := (recent.map (·.low)).foldl min swingHigh
    let current := ((bars.getLast?).map (·.close)).getD 0
    let exts := fibonacciExtension swingHigh swingLow
    let above := insertionSort (fun a b => decide (a ≤ b))
      (exts.filter (fun v => current < v))
    (above[0]?, above[1]?)

/-- `TechnicalIndicators.calc_stop_loss`: `round(entry − atr·multiplier, 0)`
(the `손절가` field). -/
def calcStopLoss (entry atrValue multiplier : Q) : Q :=
  pyRound (entry - atrValue * multiplier) 0

/-! ### C8 — `DataCollector.filter_stocks` (lines 238–264)

One row of the market-cap screen: ticker code, display name, market cap
(`시가총액`), traded value (`거래대금`). -/

structure StockRow where
  code : String
  name : String
  marketCap : Int
  tradedValue : Int
deriving Repr, DecidableEq

/-- `pat` is a prefix of `cs` (character-wise). -/
def listIsPrefix : List Char → List Char → Bool
  | [], _ => true
  | _ :: _, [] => false
  | p :: ps, c :: cs => p == c && listIsPrefix ps cs

/-- `pat` occurs as a contiguous run somewhere in `hay`. -/
def listContains : List Char → List Char → Bool
  | [], pat => pat.isEmpty
  | c :: rest, pat => listIsPrefix pat (c :: rest) || listContains rest pat

/-- Substring test (`Series.str.contains` with an alternation pattern of
literal keywords): `pat` occurs somewhere in `s`. -/
def hasSubstr (s pat : String) : Bool := listContains s.data pat.data

/-- The fund/ETF/SPAC name keywords of `filter_stocks` (line 256). -/
def etfKeywords : List String :=
  ["ETF", "ETN", "KODEX", "TIGER", "KBSTAR", "ARIRANG", "SOL", "PLUS"]

/-- A row is excluded iff its name matches any keyword. -/
def isEtfLike (r : StockRow) : Bool :=
  etfKeywords.any fun k => hasSubstr r.name k

/-- Sort by traded value descending (`df.sort_values("거래대금",
ascending=False)`; ties left in input order). -/
def sortByTradedValueDesc (rows : List StockRow) : List StockRow :=
  insertionSort (fun a b => decide (b.tradedValue ≤ a.tradedValue)) rows

/-- `DataCollector.filter_stocks` on a non-empty frame that has all three
columns: (1) market-cap floor when `minCap > 0`; (2) sort by traded value
descending and truncate to `topRank` when `topRank > 0`; (3) drop
fund/ETF/SPAC-named rows when `excludeEtf` — in exactly this order. -/
def filterStocks (rows : List StockRow) (minCap topRank : Int)
    (excludeEtf : Bool) : List StockRow :=
  let df1 := if 0 < minCap then rows.filter (fun r => minCap ≤ r.marketCap)
             else rows
  let df2 := if 0 < topRank then (sortByTradedValueDesc df1).take topRank.toNat
             else df1
  if excludeEtf then df2.filter (fun r => ¬ isEtfLike r) else df2

end Stock

namespace Stock

/-! ### `risk_manager.MarketCondition` (the fields grading reads) -/

structure MarketCondition where
  kospi_above_ma5 : Bool
  kosdaq_above_ma5 : Bool
  market_phase : String
deriving Repr, DecidableEq

/-! ### `DataCollector.get_supply_demand` (data_collector.py lines 382–456)

Inputs to the flow computation: the single-row investor frame (`외인순매수`,
`기관순매수`) or `none` when the upstream call returned an empty frame; the
program-trading dict (`프로그램순매수`) or `none` when empty; and the
current-day volume `price_data.get("거래량", 1)`.  The embedding keeps the
fields grading reads: the three buy flags, `buy_count`, the acceleration
label, and `details`.  (The acceleration divisions assume a non-zero
volume, as does the Python when it reaches them without raising.) -/

structure FlowData where
  inv : Option (Int × Int)
  prog : Option Int
  currVol : Q := 100000
deriving Repr, DecidableEq

structure SupplyResult where
  foreign_buy : Bool := false
  institution_buy : Bool := false
  program_buy : Bool := false
  buy_count : Nat := 0
  accel_label : String := ""
  details : List (String × Int) := []
deriving Repr, DecidableEq

/-- The acceleration label: `", ".join` of the components whose
`(|flow| / volume) * 20` exceeds `2.0`, else `"수급 완만"`. -/
def accelLabel (f i p : Q) : String :=
  let parts := (if 2 < f then ["외인 폭발"] else []) ++
               (if 2 < i then ["기관 폭발"] else []) ++
               (if 2 < p then ["프로그램 가속"] else [])
  if parts.isEmpty then "수급 완만" else String.intercalate ", " parts

/-- `get_supply_demand`: count `{foreign, institution, program} net-buy > 0`
(foreign/institution only when the investor frame is non-empty, program only
when the program dict is non-empty), then the acceleration label.
The free-text magnitudes inside the label strings are abstracted away; no
theorem below depends on them. -/
def getSupplyDemand (d : FlowData) : SupplyResult :=
  let currF : Int := match d.inv with | some (f, _) => f | none => 0
  let currI : Int := match d.inv with | some (_, i) => i | none => 0
  let currP : Int := match d.prog with | some p => p | none => 0
  let invDetails : List (String × Int) :=
    match d.inv with
    | some (f, i) => [("외인순매수", f), ("기관순매수", i)]
    | none => []
  let progDetails : List (String × Int) :=
    match d.prog with | some p => [("프로그램순매수", p)] | none => []
  let fBuy := d.inv.isSome ∧ 0 < currF
  let iBuy := d.inv.isSome ∧ 0 < currI
  let pBuy := d.prog.isSome ∧ 0 < currP
  let fAcc := pyRound ((currF.natAbs : Q) / d.currVol * 20) 1
  let iAcc := pyRound ((currI.natAbs : Q) / d.currVol * 20) 1
  let pAcc := pyRound ((currP.natAbs : Q) / d.currVol * 20) 1
  { foreign_buy := fBuy
    institution_buy := iBuy
    program_buy := pBuy
    buy_count := (if fBuy then 1 else 0) + (if iBuy then 1 else 0) +
                 (if pBuy then 1 else 0)
    accel_label := accelLabel fAcc iAcc pAcc
    details := invDetails ++ progDetails }

/-- The default `supply_demand` dict of `analyze_intersections` (server.py
line 87), used for tickers that fail stage 1 (flow is never queried):
`{"buy_count": 0, "details": {}, "acceleration": {"label": "분석 중"}}`. -/
def defaultSupply : SupplyResult :=
  { buy_count := 0, accel_label := "분석 중", details := [] }

/-! ### The signal dict flowing through `analyze_intersections`

A signal dict as produced by `ReportGenerator.signal_to_dict`
(report_generator.py lines 133–153), plus the keys grading adds (modelled
with neutral defaults standing for "key absent"). -/

structure Sig where
  ticker : String
  name : String := ""
  strategy : String
  triggered : Bool := true
  confidence : Q
  current_price : Q := 0
  entry_price_1 : Q := 0
  entry_price_2 : Q := 0
  target_price_1 : Q := 0
  target_price_2 : Q := 0
  stop_loss : Q := 0
  risk_reward_ratio : Q := 0
  reasons : List String := []
  verdict : String := "관망"
  -- keys added by grading (absent on input):
  multi_strategy_count : Nat := 0
  multi_strategies : List String := []
  supply_acceleration : String := ""
  filter_pattern_overlap : Bool := false
  filter_pattern_count : Nat := 0
  filter_supply_sync : Bool := false
  filter_supply_buy_count : Nat := 0
  filter_supply_details : List (String × Int) := []
  filter_market_ok : Bool := false
  filter_market_phase : String := ""
  grade : String := ""
  grade_label : String := ""
  confidence_bonus : Q := 0
  original_confidence : Q := 0
deriving Repr, DecidableEq

/-! ### `analyze_intersections` (server.py lines 54–170) -/

/-- First-occurrence-ordered list of the distinct values of `f` over `l`
(models iterating a `defaultdict` built in input order, and is also used as
a deterministic stand-in for `list(set(...))`, whose element *order* is
unspecified in Python; only its length and membership are used below). -/
def orderedDistinct (l : List String) : List String :=
  l.foldl (fun acc x => if x ∈ acc then acc else acc ++ [x]) []

/-- The signals grouped under one ticker, in input order. -/
def tickerGroup (signals : List Sig) (t : String) : List Sig :=
  signals.filter fun s => s.ticker = t

/-- Per-ticker stage data of `analyze_intersections`: the distinct strategy
list, the三-stage filter flags, and the supply result actually used. -/
structure StageData where
  strategies : List String
  patternCount : Nat
  filter1 : Bool
  supply : SupplyResult
  filter2 : Bool
  filter3 : Bool
  marketPhase : String
deriving Repr, DecidableEq

/-- Stages 1–3 for one ticker group (server.py lines 76–116).
`supplyOf` is the collector's `get_supply_demand`, queried only when stage 1
passes; stage 3 is evaluated only when stages 1 and 2 pass, passes when
either index sits above its MA5, and passes vacuously when no market
condition is available; `market_phase` keeps its initial `"UNKNOWN"` unless
stage 3 is reached with a market condition present. -/
def stageData (supplyOf : String → SupplyResult) (mc : Option MarketCondition)
    (signals : List Sig) (t : String) : StageData :=
  let group := tickerGroup signals t
  let strategies := orderedDistinct (group.map (·.strategy))
  let patternCount := strategies.length
  let filter1 := decide (2 ≤ patternCount)
  let supply := if filter1 then supplyOf t else defaultSupply
  let filter2 := filter1 && decide (2 ≤ supply.buy_count)
  let reach3 := filter1 && filter2
  let filter3 :=
    if reach3 then
      match mc with
      | some c => c.kospi_above_ma5 || c.kosdaq_above_ma5
      | none => true
    else false
  let marketPhase :=
    if reach3 then
      match mc with
      | some c => c.market_phase
      | none => "UNKNOWN"
    else "UNKNOWN"
  { strategies := strategies, patternCount := patternCount,
    filter1 := filter1, supply := supply, filter2 := filter2,
    filter3 := filter3, marketPhase := marketPhase }

/-- The grade-label strings of the five grade branches (server.py lines
141, 145, 149, 152, 155); the supply-short label interpolates the buy
count as `f"... ({bc}/2)"`. -/
def sGradeLabel : String := "S급 (3중 교집합 + 수급 + 시장)"

def aGradeLabel : String := "A급 (교집합 AND 필터 통과)"

def supplyShortLabel (bc : Nat) : String :=
  "패턴 중첩 O / 수급 미달 (" ++ toString bc ++ "/2)"

def marketShortLabel : String := "패턴+수급 O / 시장 환경 미달 (하락장)"

def singleStrategyLabel : String := "단일 전략"

/-- The per-signal mutation of `analyze_intersections` (server.py lines
118–161): annotate with the group data, prepend the acceleration reason
when the label is non-empty and not `"수급 완만"`, record the filter
results, assign grade / grade label / (for S and A) the approved verdict,
and record `confidence_bonus = 0`, `original_confidence = confidence`. -/
def enrichSignal (d : StageData) (s : Sig) : Sig :=
  let allPass := d.filter1 && d.filter2 && d.filter3
  let accel := d.supply.accel_label
  let reasons' :=
    if accel ≠ "" ∧ accel ≠ "수급 완만" then
      ("🚀 수급 가속: " ++ accel) :: s.reasons
    else s.reasons
  let base := { s with
    multi_strategy_count := d.patternCount
    multi_strategies := d.strategies
    supply_acceleration := accel
    reasons := reasons'
    filter_pattern_overlap := d.filter1
    filter_pattern_count := d.patternCount
    filter_supply_sync := d.filter2
    filter_supply_buy_count := d.supply.buy_count
    filter_supply_details := d.supply.details
    filter_market_ok := d.filter3
    filter_market_phase := d.marketPhase
    confidence_bonus := 0
    original_confidence := s.confidence }
  if allPass ∧ 3 ≤ d.patternCount then
    { base with
      grade := "S"
      grade_label := sGradeLabel
      verdict := "매수 승인" }
  else if allPass ∧ 2 ≤ d.patternCount then
    { base with
      grade := "A"
      grade_label := aGradeLabel
      verdict := "매수 승인" }
  else if d.filter1 ∧ ¬ d.filter2 then
    { base with
      grade := "B+"
      grade_label := supplyShortLabel d.supply.buy_count }
  else if d.filter1 ∧ d.filter2 ∧ ¬ d.filter3 then
    { base with grade := "B+", grade_label := marketShortLabel }
  else
    { base with grade := "B", grade_label := singleStrategyLabel }

/-- The grade ranking used for the final sort (server.py line 164). -/
def gradeOrder (g : String) : Nat :=
  if g = "S" then 0 else if g = "A" then 1 else if g = "B+" then 2 else 3

/-- The final sort key comparison: grade rank ascending, then confidence
descending (a stable sort, matching Python's `list.sort`). -/
def gradeLE (a b : Sig) : Bool :=
  gradeOrder a.grade < gradeOrder b.grade ||
    (gradeOrder a.grade = gradeOrder b.grade && b.confidence ≤ a.confidence)

/-- The enriched list before sorting: ticker groups in first-occurrence
order, each group's signals in input order. -/
def enrichedSignals (supplyOf : String → SupplyResult)
    (mc : Option MarketCondition) (signals : List Sig) : List Sig :=
  (orderedDistinct (signals.map (·.ticker))).flatMap fun t =>
    (tickerGroup signals t).map (enrichSignal (stageData supplyOf mc signals t))

/-- `analyze_intersections(signals, market_condition)` with the collector's
flow lookup supplied as the `supplyOf` oracle. -/
def analyzeIntersections (supplyOf : String → SupplyResult)
    (mc : Option MarketCondition) (signals : List Sig) : List Sig :=
  insertionSort gradeLE (enrichedSignals supplyOf mc signals)

end Stock

namespace Stock

/-! ### Golden-cross evaluator (`StrategyEngine.check_golden_cross`,
strategies.py lines 281–396)

Comparisons against a `NaN` MA cell are `False` in Python; the helpers
below give `none` that semantics. -/

/-- `a < b` under IEEE NaN semantics (`False` when either side is NaN). -/
def oLT (a b : Option Q) : Bool :=
  match a, b with
  | some x, some y => decide (x < y)
  | _, _ => false

/-- `a >= b` under IEEE NaN semantics. -/
def oGE (a b : Option Q) : Bool :=
  match a, b with
  | some x, some y => decide (y ≤ x)
  | _, _ => false

/-- `series.iloc[-i]` (1-based from the end), `none` when out of range or
NaN. -/
def ilocNeg (xs : List (Option Q)) (i : Nat) : Option Q :=
  match xs[xs.length - i]? with
  | some v => v
  | none => none

/-- `TechnicalIndicators.detect_cross` (indicators.py lines 96–114). -/
structure CrossResult where
  golden_cross : Bool
  dead_cross : Bool
deriving Repr, DecidableEq

def detectCross (shortMA longMA : List (Option Q)) : CrossResult :=
  if shortMA.length < 2 ∨ longMA.length < 2 then
    { golden_cross := false, dead_cross := false }
  else
    let prevBelow := oLT (ilocNeg shortMA 2) (ilocNeg longMA 2)
    let currAbove := oGE (ilocNeg shortMA 1) (ilocNeg longMA 1)
    let prevAbove := oLT (ilocNeg longMA 2) (ilocNeg shortMA 2)
    let currBelow := oGE (ilocNeg longMA 1) (ilocNeg shortMA 1)
    { golden_cross := prevBelow && currAbove
      dead_cross := prevAbove && currBelow }

/-- `GoldenCrossParams` of config.py (lines 98–104), defaults included. -/
structure GoldenCrossParams where
  short_ma : Nat := 5
  long_ma : Nat := 20
  ma_slope_min : Q := 0
  rsi_period : Nat := 14
  rsi_threshold : Q := 50
deriving Repr, DecidableEq

/-- The numeric core of a `StrategySignal` (strategies.py lines 36–52).
The `ticker`/`name`/`strategy`/`reasons`/`details` fields are presentation
data (display-name lookup and formatted strings); no claim below depends on
them, so the embedding keeps the decision fields. -/
structure StrategySignal where
  triggered : Bool := false
  confidence : Q := 0
  current_price : Q := 0
  entry_price_1 : Q := 0
  entry_price_2 : Q := 0
  target_price_1 : Q := 0
  target_price_2 : Q := 0
  stop_loss : Q := 0
  risk_reward_ratio : Q := 0
  verdict : String := "관망"
deriving Repr, DecidableEq

/-- `add_all_ma` (indicators.py lines 32–40) adds column `MA{k}` for
`k ∈ {5,10,20,60,120}` only when the frame has at least `k` rows; this
tests presence of such a column. -/
def maColPresent (n k : Nat) : Bool :=
  k ∈ [5, 10, 20, 60, 120] && k ≤ n

/-- `risk_config.atr_multiplier` (config.py line 145). -/
def atrMultiplier : Q := 2

/-- `StrategyEngine.check_golden_cross` as a function of the OHLCV frame
returned by `collector.get_ohlcv(ticker, 100)` (an untriggered
zero-confidence signal when history is short, then cross detection / MA20
slope / RSI scoring, then price levels when triggered).  In the
`atr`/`MA20` last-cell reads, the fall-through arms of the matches are
unreachable: past the earlier guards the frame has ≥ 30 ≥ 14 rows so the
last rolling cell is defined; they mirror the `else current_price * 0.02`
fallback of line 375. -/
def checkGoldenCross (p : GoldenCrossParams) (bars : List Bar) :
    StrategySignal :=
  if bars.length < 30 then {}
  else
    let n := bars.length
    let closes := bars.map (·.close)
    let current := (closes.getLast?).getD 0
    let sig1 : StrategySignal := { current_price := current }
    if ¬ (maColPresent n p.short_ma ∧ maColPresent n p.long_ma) then sig1
    else
      let shortMA := sma closes p.short_ma
      let longMA := sma closes p.long_ma
      let cross := detectCross shortMA longMA
      let recentGolden := (List.range' 1 3).any fun i =>
        decide (i + 1 < n) &&
        oLT (ilocNeg shortMA (i + 1)) (ilocNeg longMA (i + 1)) &&
        oGE (ilocNeg shortMA i) (ilocNeg longMA i)
      let isGolden := cross.golden_cross || recentGolden
      if ¬ isGolden then sig1
      else
        let slope := maSlopeDegree longMA 5
        let slopeOk : Bool := match slope with
          | some v => decide (p.ma_slope_min ≤ v)
          | none => false
        let rsiS := rsi closes p.rsi_period
        let rsiToday := (rsiS.getLast?).getD 50
        let rsiYesterday :=
          if 2 ≤ rsiS.length then (rsiS[rsiS.length - 2]?).getD 50 else 50
        let rsiCrossUp := p.rsi_threshold < rsiToday ∧
                          rsiYesterday ≤ p.rsi_threshold
        let rsiAboveRising := p.rsi_threshold < rsiToday ∧
                              rsiYesterday < rsiToday
        let score : Q := 40 + (if slopeOk then 25 else 5) +
          (if rsiCrossUp then 35 else if rsiAboveRising then 20 else 0)
        let confidence := min score 100
        let triggered := decide (65 ≤ score)
        if ¬ triggered then
          { sig1 with confidence := confidence, triggered := false }
        else
          let atrS := atr bars 14
          let atrVal := match atrS.getLast? with
            | some (some v) => v
            | _ => current * 2 / 100
          let ma20Val := match longMA.getLast? with
            | some (some v) => v
            | _ => 0
          let entry1 := pyRound current 0
          let entry2 := pyRound ma20Val 0
          let targets := calcTargetPrice bars
          let target1 := targets.1.getD (pyRound (current * 107/100) 0)
          let target2 := targets.2.getD (pyRound (current * 115/100) 0)
          let stop := calcStopLoss entry1 atrVal atrMultiplier
          let rr := pyRound ((target1 - entry1) / max (entry1 - stop) 1) 2
          { triggered := true
            confidence := confidence
            current_price := current
            entry_price_1 := entry1
            entry_price_2 := entry2
            target_price_1 := target1
            target_price_2 := target2
            stop_loss := stop
            risk_reward_ratio := rr
            verdict := if decide (75 ≤ confidence) && slopeOk then "매수 승인"
                       else "관망" }

end Stock

namespace Stock

/-! ### Concrete inputs used by the witnesses and counterexamples below -/

/-- Number of distinct triggered strategies recorded for one ticker by the
grader (stage 1's pattern count). -/
def distinctStrategyCount (signals : List Sig) (t : String) : Nat :=
  (orderedDistinct ((tickerGroup signals t).map (·.strategy))).length

/-- A bar of the golden-cross counterexample frame: every bar has high 101
and low 100 (so the 60-bar swing is the band [100, 101]); only the closes
vary. -/
def gcBar (c : Q) : Bar :=
  { «open» := 100, high := 101, low := 100, close := c, volume := 0 }

/-- A 30-bar OHLCV frame: closes 100 ×23, then 60 ×4 (a dip), then
100, 220, 100.  MA5 crosses MA20 from below between bars 28 and 29 (within
the 3-day window the evaluator accepts), the MA20 5-bar slope is ≈ +4.26 %,
and the fibonacci extensions of the swing [100, 101] round to
[101, 101, 102, 102, 103]. -/
def goldenCrossFrame : List Bar :=
  (List.replicate 23 (100 : Q) ++ List.replicate 4 60 ++
    [100, 220, 100]).map gcBar

/-- Flow data of the C3 instance: foreign net-buy +1000, institution
net-buy +500, program net-buy −200. -/
def flowForeignInstOnly : FlowData :=
  { inv := some (1000, 500), prog := some (-200), currVol := 100000 }

/-- Market condition with KOSPI above its MA5 and KOSDAQ below. -/
def mcKospiUp : MarketCondition :=
  { kospi_above_ma5 := true, kosdaq_above_ma5 := false,
    market_phase := "NEUTRAL" }

/-- Three triggered signals of three distinct strategies on one ticker. -/
def threeStrategySignals : List Sig :=
  [{ ticker := "005930", strategy := "눌림목", confidence := 80 },
   { ticker := "005930", strategy := "골든크로스", confidence := 72 },
   { ticker := "005930", strategy := "박스권돌파", confidence := 66 }]

/-- A single-strategy signal that arrives already carrying the approved
verdict from its evaluator (check_pullback grants it at confidence ≥ 75,
strategies.py line 157). -/
def approvedSingleSignal : List Sig :=
  [{ ticker := "000660", strategy := "눌림목", confidence := 80,
     verdict := "매수 승인" }]

/-- Two signals of distinct strategies on one ticker, both still on the
evaluator's default "관망" verdict. -/
def twoStrategyWatchSignals : List Sig :=
  [{ ticker := "035420", strategy := "골든크로스", confidence := 70 },
   { ticker := "035420", strategy := "박스권돌파", confidence := 60 }]

/-- Flow data with foreign and institution net-buys only (buy count 2). -/
def flowTwoBuys : FlowData :=
  { inv := some (5, 5), prog := none, currVol := 100000 }

/-- An ETF-named row with the highest traded value of the C8 frame. -/
def etfRowEx : StockRow :=
  { code := "069500", name := "KODEX 200",
    marketCap := 2000000000000, tradedValue := 100 }

/-- A qualifying (non-ETF) row with a lower traded value. -/
def goodRowEx : StockRow :=
  { code := "005930", name := "삼성전자",
    marketCap := 400000000000000, tradedValue := 50 }

/-- The two-row market-cap screen of the C8 counterexample. -/
def screenRows : List StockRow := [goodRowEx, etfRowEx]

/-- Collector oracle answering every ticker with the foreign+institution
flow data. -/
def supplyForeignInst : String → SupplyResult :=
  fun _ => getSupplyDemand flowForeignInstOnly

/-- The enrichment of the first three-strategy signal, as produced inside
`analyze_intersections`. -/
def enrichedThreeStrategyHead : Sig :=
  enrichSignal (stageData supplyForeignInst (some mcKospiUp)
    threeStrategySignals "005930")
    { ticker := "005930", strategy := "눌림목", confidence := 80 }

/-- Collector oracle answering every ticker with the two-buy flow data. -/
def supplyTwoBuys : String → SupplyResult :=
  fun _ => getSupplyDemand flowTwoBuys

/-- Collector oracle that always answers the grader's default supply
record (its value is irrelevant where stage 1 already fails). -/
def supplyDefault : String → SupplyResult := fun _ => defaultSupply

/-- The enrichment of the already-approved single-strategy signal. -/
def enrichedApprovedSingle : Sig :=
  enrichSignal (stageData supplyDefault (some mcKospiUp)
    approvedSingleSignal "000660")
    { ticker := "000660", strategy := "눌림목", confidence := 80,
      verdict := "매수 승인" }

/-- The enrichment of the first watch-verdict two-strategy signal. -/
def enrichedTwoStrategyHead : Sig :=
  enrichSignal (stageData supplyTwoBuys (some mcKospiUp)
    twoStrategyWatchSignals "035420")
    { ticker := "035420", strategy := "골든크로스", confidence := 70 }

end Stock

namespace Stock

/-! ## Theorems -/

/-- Helper: a state with no outgoing step is the only state it reaches. -/
theorem reach_eq_of_stuck {a s : ScanState}
    (hstuck : ∀ t, ¬ ScanStep a t) (h : ScanReach a s) : s = a := by
  induction h with
  | refl => rfl
  | tail h1 h2 ih =>
    rw [ih] at h2
    exact absurd h2 (hstuck _)

/-- C1: `run_scan` on a non-empty ticker list deadlocks instead of
completing.  The claim asserts that worker-thread progress updates (which
acquire the same non-reentrant `self._lock` the run holds) never prevent
completion; in the code the main thread holds the lock for the whole scan
while blocking in `executor.map` on workers that each block acquiring that
very lock: from the fan-out state no transition is enabled, so no reachable
state has the run completed. -/
theorem run_scan_deadlocks (n : Nat) :
    (∀ s, ¬ ScanStep (scanStart (n + 1)) s) ∧
    (∀ s, ScanReach (scanStart (n + 1)) s → s.mainDone = false) := by
  have hstuck : ∀ s, ¬ ScanStep (scanStart (n + 1)) s := by
    intro s h
    cases h with
    | workerUpdate k hlock _ => simp [scanStart] at hlock
    | mainFinish _ hpend _ => simp [scanStart] at hpend
  refine ⟨hstuck, fun s h => ?_⟩
  rw [reach_eq_of_stuck hstuck h]
  rfl

/-- Witness for C1 at the five-ticker manual fallback list of
scanner.py line 92. -/
theorem run_scan_deadlocks_witness :
    (scanStart 5).mainDone = false ∧ ¬ ScanStep (scanStart 5) (scanStart 5) :=
  ⟨(run_scan_deadlocks 4).2 (scanStart 5) (ScanReach.refl _),
   (run_scan_deadlocks 4).1 (scanStart 5)⟩

/-- C2: importing `data_collector.py` raises an unhandled
`NameError: name 'os' is not defined` — the module never imports `os`, yet
the `DataCollector()` singleton built at the bottom of the module calls
`_load_names`, whose first expression `os.path.exists(...)` sits outside
the `try` block.  The claimed "constructing the core components never
raises" fails at process start. -/
theorem import_data_collector_raises_name_error :
    importDataCollector = Except.error (PyError.nameError "os") := by rfl

/-- C10: `vars` overrides written by one `run_scan` persist in the shared
`strategy_config` object: a following `run_scan` with no overrides
evaluates the strategies with the previous call's values (here the
golden-cross RSI threshold), not with the configured defaults. -/
theorem scan_vars_overrides_persist (o : VarsMap) (x : Q)
    (hne : o.isEmpty = false) (hx : o.lookup "g_rsi" = some x)
    (hx50 : x ≠ 50) :
    ((runScanParams none (runScanParams (some o) initialStrategyConfig).2).1 =
      (runScanParams (some o) initialStrategyConfig).1) ∧
    (runScanParams none
        (runScanParams (some o)
          initialStrategyConfig).2).1.golden_cross_rsi_threshold = x ∧
    (runScanParams none (runScanParams (some o) initialStrategyConfig).2).1 ≠
      initialStrategyConfig := by
  refine ⟨rfl, ?_, ?_⟩
  · simp [runScanParams, applyScanVars, hne, varsGet, hx]
  · intro h
    have h2 := congrArg StrategyParams.golden_cross_rsi_threshold h
    simp [runScanParams, applyScanVars, hne, varsGet, hx,
      initialStrategyConfig] at h2
    exact hx50 h2

/-- Witness for C10: override `g_rsi = 60`, then scan again with no
overrides; the second scan still reads threshold 60. -/
theorem scan_vars_overrides_persist_witness :
    (runScanParams none
        (runScanParams (some [("g_rsi", (60 : Q))])
          initialStrategyConfig).2).1.golden_cross_rsi_threshold = 60 :=
  (scan_vars_overrides_persist [("g_rsi", 60)] 60 (by decide) (by decide)
    (by decide)).2.1

/-- C7: a cache entry aged one day plus five minutes (86 700 s, 144× the
600 s TTL) is served as a fresh hit, because the freshness test reads
`timedelta.seconds` (the sub-day seconds component, here 300) instead of
the total age.  The claimed "an entry older than its TTL is treated as
absent for every possible age, including one day or more" fails. -/
theorem stale_cache_entry_served :
    cachedLookup (some { fetchedAt := 0, payload := (42 : Nat) }) 86700 =
      some 42 ∧
    timedeltaSeconds 86700 = 300 ∧ 600 < 86700 := by decide

end Stock

namespace Stock

/-- Helper: membership is invariant under `insertLe`. -/
theorem mem_insertLe {α : Type} (le : α → α → Bool) (x a : α) :
    ∀ l : List α, a ∈ insertLe le x l ↔ a = x ∨ a ∈ l := by
  intro l
  induction l with
  | nil => simp [insertLe]
  | cons y ys ih =>
    simp only [insertLe]
    by_cases h : le y x = true
    · simp only [if_pos h, List.mem_cons, ih]
      tauto
    · simp only [if_neg h, List.mem_cons]

/-- Helper: membership is invariant under `insertionSort`. -/
theorem mem_insertionSort {α : Type} (le : α → α → Bool) (a : α)
    (l : List α) : a ∈ insertionSort le l ↔ a ∈ l := by
  suffices h : ∀ (l : List α) (acc : List α),
      a ∈ l.foldl (fun acc x => insertLe le x acc) acc ↔ a ∈ acc ∨ a ∈ l by
    unfold insertionSort
    rw [h]
    simp
  intro l
  induction l with
  | nil => intro acc; simp
  | cons y ys ih =>
    intro acc
    simp only [List.foldl_cons]
    rw [ih, mem_insertLe]
    simp only [List.mem_cons]
    tauto

/-- Helper: `sma` over a series shorter than the window is `none`
everywhere. -/
theorem sma_all_none {xs : List Q} {p : Nat} (h : xs.length < p) :
    ∀ v ∈ sma xs p, v = none := by
  intro v hv
  simp only [sma, List.mem_map, List.mem_range] at hv
  obtain ⟨i, hi, rfl⟩ := hv
  rw [if_neg]
  omega

/-- Helper: the true-range series has one entry per bar. -/
theorem trueRangeSeries_length (bars : List Bar) :
    (trueRangeSeries bars).length = bars.length := by
  simp [trueRangeSeries]

/-- Helper: the folded `emaStep` accumulates one output per input. -/
theorem emaStep_foldl_length (α : Q) (rest : List Q) :
    ∀ (a : Q) (l : List Q),
      ((rest.foldl (emaStep α) (a, l)).2).length = l.length + rest.length := by
  induction rest with
  | nil => intro a l; simp
  | cons y ys ih =>
    intro a l
    simp only [List.foldl_cons]
    rw [ih]
    simp only [emaStep, List.length_cons]
    omega

/-- Helper: `ema` is defined at every index of its input. -/
theorem ema_length (xs : List Q) (span : Nat) :
    (ema xs span).length = xs.length := by
  cases xs with
  | nil => rfl
  | cons x rest =>
    show ((rest.foldl (emaStep (2 / ((span : Q) + 1)))
      (x, [x])).2).reverse.length = _
    rw [List.length_reverse, emaStep_foldl_length]
    simp [Nat.add_comm]

/-- C6 (amended): for a series with fewer than `period` observations, `sma`
and `atr` are undefined (`none`) at every index; `ema`, however, uses the
recursive `adjust=False` form with no minimum-period guard and yields a
numeric value at every index of the input from the first observation on. -/
theorem short_series_indicators (xs : List Q) (bars : List Bar) (p : Nat)
    (hx : xs.length < p) (hb : bars.length < p) :
    (∀ v ∈ sma xs p, v = none) ∧ (∀ v ∈ atr bars p, v = none) ∧
    (ema xs p).length = xs.length := by
  refine ⟨sma_all_none hx, ?_, ema_length xs p⟩
  have h : (trueRangeSeries bars).length < p := by
    rw [trueRangeSeries_length]
    exact hb
  exact sma_all_none h

/-- Witness for C6 (amended) on a 2-bar series with period 3. -/
theorem short_series_indicators_witness :
    ([(1 : Q), 2].length < 3 ∧
      ∀ v ∈ sma [(1 : Q), 2] 3, v = none) :=
  ⟨by decide,
   (short_series_indicators [1, 2] [] 3 (by decide) (by decide)).1⟩

/-- C6 counterexample: `ema` on a one-element series with period 3 returns
the numeric value 1 at index 0 — not `null`/undefined as the claim states
for every index of a series shorter than the period. -/
theorem ema_numeric_before_period :
    ema [1] 3 = [1] ∧ ([(1 : Q)].length < 3) := by
  exact ⟨rfl, by decide⟩

/-- C8 (amended): `filter_stocks` applies the fund/ETF/SPAC name-pattern
exclusion *after* sorting by turnover and truncating to top-N: the result
is the exclusion filter applied to the truncated top-N of the cap-filtered
rows (so an excludable instrument can occupy a top-N slot and the result
can be shorter than N); every returned row still meets the market-cap floor
and is not excludable. -/
theorem filter_stocks_excludes_after_truncation (rows : List StockRow)
    (minCap topRank : Int) (hm : 0 < minCap) (ht : 0 < topRank) :
    filterStocks rows minCap topRank true =
      ((sortByTradedValueDesc (rows.filter fun r =>
          minCap ≤ r.marketCap)).take topRank.toNat).filter
        (fun r => ¬ isEtfLike r) ∧
    ∀ r ∈ filterStocks rows minCap topRank true,
      minCap ≤ r.marketCap ∧ isEtfLike r = false := by
  have he : filterStocks rows minCap topRank true =
      ((sortByTradedValueDesc (rows.filter fun r =>
          minCap ≤ r.marketCap)).take topRank.toNat).filter
        (fun r => ¬ isEtfLike r) := by
    simp only [filterStocks]
    rw [if_pos hm, if_pos ht]
    simp
  refine ⟨he, fun r hr => ?_⟩
  rw [he] at hr
  obtain ⟨hr1, hr2⟩ := List.mem_filter.mp hr
  have hr3 : r ∈ sortByTradedValueDesc
      (rows.filter fun r => minCap ≤ r.marketCap) :=
    List.take_subset _ _ hr1
  have hr4 : r ∈ rows.filter fun r => minCap ≤ r.marketCap := by
    unfold sortByTradedValueDesc at hr3
    exact (mem_insertionSort _ _ _).mp hr3
  obtain ⟨_, hcap⟩ := List.mem_filter.mp hr4
  constructor
  · simpa using hcap
  · simpa using hr2

/-- Witness for C8 (amended) at the two-row screen. -/
theorem filter_stocks_excludes_after_truncation_witness :
    ((0 : Int) < 1 ∧
      filterStocks screenRows 1 1 true =
        ((sortByTradedValueDesc (screenRows.filter fun r =>
            (1 : Int) ≤ r.marketCap)).take (1 : Int).toNat).filter
          (fun r => ¬ isEtfLike r)) :=
  ⟨by decide,
   (filter_stocks_excludes_after_truncation screenRows 1 1 (by decide)
      (by decide)).1⟩

/-- C8 counterexample: with a cap floor of 1 and top-1 truncation, the
ETF-named row (highest turnover) takes the single top-N slot and is then
excluded, so the qualifying non-ETF row is displaced and the result is
empty — under the claimed exclusion-before-truncation order the result
would be the qualifying row. -/
theorem etf_row_displaces_qualifying_row :
    filterStocks screenRows 1 1 true = [] ∧
    goodRowEx ∈ screenRows ∧ (1 : Int) ≤ goodRowEx.marketCap ∧
    isEtfLike goodRowEx = false ∧ isEtfLike etfRowEx = true ∧
    goodRowEx.tradedValue < etfRowEx.tradedValue := by decide

end Stock


namespace Stock

set_option maxRecDepth 10000

/-- C4: evaluating `check_golden_cross` at a concrete 30-bar frame whose
60-bar swing is the band [100, 101]: the signal triggers (confidence 65,
exactly the strategy's trigger threshold, so that part of the invariant
holds) but the two smallest fibonacci-extension levels above the current
price both round to 101, so `target_price_1 = target_price_2` and the
claimed strict chain `stop < entry1 < target1 < target2` fails — with no
box/ceiling price capping the stop (the golden-cross evaluator applies no
cap). -/
theorem golden_cross_equal_targets :
    (checkGoldenCross {} goldenCrossFrame).triggered = true ∧
    (checkGoldenCross {} goldenCrossFrame).confidence = 65 ∧
    (checkGoldenCross {} goldenCrossFrame).entry_price_1 = 100 ∧
    (checkGoldenCross {} goldenCrossFrame).stop_loss = 58 ∧
    (checkGoldenCross {} goldenCrossFrame).target_price_1 = 101 ∧
    (checkGoldenCross {} goldenCrossFrame).target_price_2 = 101 := by
  refine ⟨by decide, by decide, by decide, by decide, by decide, by decide⟩

end Stock

namespace Stock

/-- Helper: `orderedDistinct` has the same members as its input. -/
theorem mem_orderedDistinct {l : List String} {x : String} :
    x ∈ orderedDistinct l ↔ x ∈ l := by
  suffices h : ∀ (l acc : List String),
      x ∈ l.foldl (fun acc y => if y ∈ acc then acc else acc ++ [y]) acc ↔
        x ∈ acc ∨ x ∈ l by
    unfold orderedDistinct
    rw [h]
    simp
  intro l
  induction l with
  | nil => intro acc; simp
  | cons y ys ih =>
    intro acc
    simp only [List.foldl_cons]
    rw [ih]
    by_cases hy : y ∈ acc
    · rw [if_pos hy]
      simp only [List.mem_cons]
      constructor
      · rintro (h | h)
        · exact Or.inl h
        · exact Or.inr (Or.inr h)
      · rintro (h | h | h)
        · exact Or.inl h
        · exact Or.inl (h ▸ hy)
        · exact Or.inr h
    · rw [if_neg hy]
      simp only [List.mem_append, List.mem_singleton, List.mem_cons]
      tauto

/-- Helper: the enriched list holds exactly the enrichments of the input
signals (each against its own ticker's stage data). -/
theorem mem_enrichedSignals {supplyOf : String → SupplyResult}
    {mc : Option MarketCondition} {signals : List Sig} {s' : Sig} :
    s' ∈ enrichedSignals supplyOf mc signals ↔
      ∃ s ∈ signals,
        s' = enrichSignal (stageData supplyOf mc signals s.ticker) s := by
  unfold enrichedSignals
  rw [List.mem_flatMap]
  constructor
  · rintro ⟨t, ht, hmem⟩
    rw [List.mem_map] at hmem
    obtain ⟨s, hs, rfl⟩ := hmem
    rw [tickerGroup, List.mem_filter] at hs
    obtain ⟨hs1, hs2⟩ := hs
    have hts : s.ticker = t := by simpa using hs2
    exact ⟨s, hs1, by rw [hts]⟩
  · rintro ⟨s, hs, rfl⟩
    refine ⟨s.ticker, ?_, ?_⟩
    · rw [mem_orderedDistinct, List.mem_map]
      exact ⟨s, hs, rfl⟩
    · rw [List.mem_map]
      refine ⟨s, ?_, rfl⟩
      rw [tickerGroup, List.mem_filter]
      exact ⟨hs, by simp⟩

/-- Helper: membership in the grader's output, through the final stable
sort. -/
theorem mem_analyzeIntersections {supplyOf : String → SupplyResult}
    {mc : Option MarketCondition} {signals : List Sig} {s' : Sig} :
    s' ∈ analyzeIntersections supplyOf mc signals ↔
      ∃ s ∈ signals,
        s' = enrichSignal (stageData supplyOf mc signals s.ticker) s := by
  unfold analyzeIntersections
  rw [mem_insertionSort, mem_enrichedSignals]

/-- Helper: the two B+ grade labels are distinct strings (they differ at
character index 2). -/
theorem supplyShortLabel_ne_marketShort (bc : Nat) :
    supplyShortLabel bc ≠ marketShortLabel := by
  intro h
  have hlen : 2 < ("패턴 중첩 O / 수급 미달 (" : String).data.length := by decide
  have h2 := congrArg (fun s => s.data.getD 2 ' ') h
  simp only [supplyShortLabel, marketShortLabel] at h2
  rw [String.data_append, String.data_append] at h2
  rw [List.getD_append _ _ _ _ (by rw [List.length_append]; omega),
      List.getD_append _ _ _ _ hlen] at h2
  exact absurd h2 (by decide)

/-- Helper: enrichment never changes the ticker. -/
theorem enrichSignal_ticker (d : StageData) (s : Sig) :
    (enrichSignal d s).ticker = s.ticker := by
  unfold enrichSignal
  dsimp only
  split_ifs <;> rfl

end Stock

namespace Stock

set_option maxRecDepth 10000

/-- C3: the intersection grader's grade assignment, as a five-way
characterization over every signal list and every (present) market
condition: grade S iff at least 3 distinct triggered strategies AND supply
buy-count ≥ 2 AND at least one benchmark index above its 5-period average;
grade A iff the same two later stages pass with exactly 2 distinct
strategies; B+ with the supply-short label iff only pattern overlap passes;
B+ with the market-short label iff pattern and supply pass but the market
stage fails; grade B iff fewer than 2 distinct strategies. -/
theorem analyze_intersections_grade_rule
    (supplyOf : String → SupplyResult) (mc : MarketCondition)
    (signals : List Sig) (s' : Sig)
    (hmem : s' ∈ analyzeIntersections supplyOf (some mc) signals) :
    (s'.grade = "S" ↔
       3 ≤ distinctStrategyCount signals s'.ticker ∧
       2 ≤ (supplyOf s'.ticker).buy_count ∧
       (mc.kospi_above_ma5 || mc.kosdaq_above_ma5) = true) ∧
    (s'.grade = "A" ↔
       distinctStrategyCount signals s'.ticker = 2 ∧
       2 ≤ (supplyOf s'.ticker).buy_count ∧
       (mc.kospi_above_ma5 || mc.kosdaq_above_ma5) = true) ∧
    ((s'.grade = "B+" ∧
        s'.grade_label = supplyShortLabel (supplyOf s'.ticker).buy_count) ↔
       2 ≤ distinctStrategyCount signals s'.ticker ∧
       (supplyOf s'.ticker).buy_count < 2) ∧
    ((s'.grade = "B+" ∧ s'.grade_label = marketShortLabel) ↔
       2 ≤ distinctStrategyCount signals s'.ticker ∧
       2 ≤ (supplyOf s'.ticker).buy_count ∧
       (mc.kospi_above_ma5 || mc.kosdaq_above_ma5) = false) ∧
    (s'.grade = "B" ↔ distinctStrategyCount signals s'.ticker < 2) := by
  obtain ⟨s, hs, rfl⟩ := mem_analyzeIntersections.mp hmem
  rw [enrichSignal_ticker]
  have hpc : (orderedDistinct ((tickerGroup signals s.ticker).map
      (·.strategy))).length = distinctStrategyCount signals s.ticker := rfl
  by_cases h1 : 2 ≤ distinctStrategyCount signals s.ticker
  · by_cases h2 : 2 ≤ (supplyOf s.ticker).buy_count
    · by_cases h3 : (mc.kospi_above_ma5 || mc.kosdaq_above_ma5) = true
      · by_cases h4 : 3 ≤ distinctStrategyCount signals s.ticker
        · simp [enrichSignal, stageData, hpc, h1, h2, h3, h4]
          omega
        · simp [enrichSignal, stageData, hpc, h1, h2, h3, h4]
          omega
      · simp [enrichSignal, stageData, hpc, h1, h2, h3,
          (supplyShortLabel_ne_marketShort (supplyOf s.ticker).buy_count).symm]
    · simp [enrichSignal, stageData, hpc, h1, h2,
        supplyShortLabel_ne_marketShort (supplyOf s.ticker).buy_count]
      omega
  · simp [enrichSignal, stageData, hpc, h1]
    omega

/-- Witness for C3 at the claim's own instance: three distinct triggered
strategies on one ticker, foreign and institution net-buy > 0 with program
net-buy ≤ 0 (buy count 2), KOSPI above its MA5 — the enriched signal is in
the grader's output and receives grade S. -/
theorem analyze_intersections_grade_rule_witness :
    (enrichedThreeStrategyHead ∈ analyzeIntersections supplyForeignInst
        (some mcKospiUp) threeStrategySignals) ∧
    enrichedThreeStrategyHead.grade = "S" :=
  have h := analyze_intersections_grade_rule supplyForeignInst mcKospiUp
    threeStrategySignals enrichedThreeStrategyHead (by decide)
  ⟨by decide, h.1.mpr (by decide)⟩

/-- C5 (amended): the grader writes the approved verdict ("매수 승인")
exactly in the grade-S and grade-A branches; at every other grade it leaves
the input signal's verdict in place — so a signal whose evaluator already
approved it keeps the approved verdict even when graded B+/B. -/
theorem approved_verdict_granted_only_at_S_A
    (supplyOf : String → SupplyResult) (mc : Option MarketCondition)
    (signals : List Sig) (s' : Sig)
    (hmem : s' ∈ analyzeIntersections supplyOf mc signals) :
    ∃ s ∈ signals,
      ((s'.grade = "S" ∨ s'.grade = "A") → s'.verdict = "매수 승인") ∧
      (¬ (s'.grade = "S" ∨ s'.grade = "A") → s'.verdict = s.verdict) := by
  obtain ⟨s, hs, rfl⟩ := mem_analyzeIntersections.mp hmem
  refine ⟨s, hs, ?_, ?_⟩ <;>
  · unfold enrichSignal
    dsimp only
    split_ifs <;> simp

/-- Witness for C5 (amended) at the approved single-strategy signal. -/
theorem approved_verdict_granted_only_at_S_A_witness :
    ∃ s ∈ approvedSingleSignal,
      ((enrichedApprovedSingle.grade = "S" ∨
          enrichedApprovedSingle.grade = "A") →
        enrichedApprovedSingle.verdict = "매수 승인") ∧
      (¬ (enrichedApprovedSingle.grade = "S" ∨
            enrichedApprovedSingle.grade = "A") →
        enrichedApprovedSingle.verdict = s.verdict) :=
  approved_verdict_granted_only_at_S_A supplyDefault (some mcKospiUp)
    approvedSingleSignal enrichedApprovedSingle (by decide)

/-- C5 counterexample: a single-strategy signal that arrives with the
approved verdict is graded "B", and the grader's output still carries
"매수 승인" on it — an approved verdict on a grade-B signal, contradicting
the claim that no B+/B signal carries one. -/
theorem approved_verdict_survives_at_grade_B :
    (analyzeIntersections supplyDefault (some mcKospiUp)
        approvedSingleSignal).map (fun s => (s.grade, s.verdict)) =
      [("B", "매수 승인")] := by decide

/-- C9 (amended): grading leaves the original confidence — and every other
pre-existing field — of each input signal unchanged, with one exception the
counterexample forces: the verdict, which is overwritten to the approved
value exactly when grade S or A is assigned.  The reasons list is unchanged
or gets the single acceleration entry prepended; grade, grade label and
filter metadata are only appended. -/
theorem grading_preserves_fields
    (supplyOf : String → SupplyResult) (mc : Option MarketCondition)
    (signals : List Sig) (s' : Sig)
    (hmem : s' ∈ analyzeIntersections supplyOf mc signals) :
    ∃ s ∈ signals,
      s'.confidence = s.confidence ∧
      s'.original_confidence = s.confidence ∧
      s'.confidence_bonus = 0 ∧
      s'.ticker = s.ticker ∧ s'.name = s.name ∧ s'.strategy = s.strategy ∧
      s'.triggered = s.triggered ∧ s'.current_price = s.current_price ∧
      s'.entry_price_1 = s.entry_price_1 ∧
      s'.entry_price_2 = s.entry_price_2 ∧
      s'.target_price_1 = s.target_price_1 ∧
      s'.target_price_2 = s.target_price_2 ∧
      s'.stop_loss = s.stop_loss ∧
      s'.risk_reward_ratio = s.risk_reward_ratio ∧
      (s'.reasons = s.reasons ∨ ∃ r, s'.reasons = r :: s.reasons) ∧
      (s'.verdict = s.verdict ∨
        ((s'.grade = "S" ∨ s'.grade = "A") ∧ s'.verdict = "매수 승인")) := by
  obtain ⟨s, hs, rfl⟩ := mem_analyzeIntersections.mp hmem
  refine ⟨s, hs, ?_⟩
  unfold enrichSignal
  dsimp only
  split_ifs <;> simp

/-- Witness for C9 (amended) at the two-strategy watch-verdict instance. -/
theorem grading_preserves_fields_witness :
    ∃ s ∈ twoStrategyWatchSignals,
      enrichedTwoStrategyHead.confidence = s.confidence ∧
      enrichedTwoStrategyHead.original_confidence = s.confidence ∧
      enrichedTwoStrategyHead.confidence_bonus = 0 ∧
      enrichedTwoStrategyHead.ticker = s.ticker ∧
      enrichedTwoStrategyHead.name = s.name ∧
      enrichedTwoStrategyHead.strategy = s.strategy ∧
      enrichedTwoStrategyHead.triggered = s.triggered ∧
      enrichedTwoStrategyHead.current_price = s.current_price ∧
      enrichedTwoStrategyHead.entry_price_1 = s.entry_price_1 ∧
      enrichedTwoStrategyHead.entry_price_2 = s.entry_price_2 ∧
      enrichedTwoStrategyHead.target_price_1 = s.target_price_1 ∧
      enrichedTwoStrategyHead.target_price_2 = s.target_price_2 ∧
      enrichedTwoStrategyHead.stop_loss = s.stop_loss ∧
      enrichedTwoStrategyHead.risk_reward_ratio = s.risk_reward_ratio ∧
      (enrichedTwoStrategyHead.reasons = s.reasons ∨
        ∃ r, enrichedTwoStrategyHead.reasons = r :: s.reasons) ∧
      (enrichedTwoStrategyHead.verdict = s.verdict ∨
        ((enrichedTwoStrategyHead.grade = "S" ∨
            enrichedTwoStrategyHead.grade = "A") ∧
          enrichedTwoStrategyHead.verdict = "매수 승인")) :=
  grading_preserves_fields supplyTwoBuys (some mcKospiUp)
    twoStrategyWatchSignals enrichedTwoStrategyHead (by decide)

/-- C9 counterexample: two watch-verdict ("관망") signals of distinct
strategies on one ticker pass all three stages; grading assigns grade A and
overwrites their verdicts to "매수 승인" — a pre-existing field other than
the appended grade/reasons/filter metadata is modified, contradicting the
claim that the verdict is unchanged. -/
theorem grading_overwrites_watch_verdict :
    (analyzeIntersections supplyTwoBuys (some mcKospiUp)
        twoStrategyWatchSignals).map (fun s => (s.grade, s.verdict)) =
      [("A", "매수 승인"), ("A", "매수 승인")] ∧
    twoStrategyWatchSignals.map (·.verdict) = ["관망", "관망"] := by decide

end Stock
